import Mathlib

/-!
Verification development for the `pythonrouge` package
(`pythonrouge/__init__.py`, class `PythonROUGE`).

The Python class is shallowly embedded as pure Lean functions:
* `getRougeCmd` embeds `_get_rouge_cmd` (lines 83-123);
* `stagedFileContent`, `fileNames`, `buildEvalUnits`, `convertAndConfig`
  embed `convert_and_config` (lines 125-200);
* `output_to_dict` embeds `output_to_dict` (lines 207-306), with Python's
  `re.findall` over the fixed patterns embedded as literal scanning in which
  a `.` in the pattern matches any character and the capture group
  `([0-9.]+)` is a maximal nonempty run of digits and dots;
* `evaluateRun` embeds `evaluate` (lines 308-322), with the filesystem
  abstracted to the list of directories existing on disk and the external
  `perl` process replaced by an explicit outcome argument.

Python exceptions are modelled by the `PyError` type; a function that can
raise returns `Except PyError _`.  Python `float` values arising from
parsing the scorer output are modelled as `ℚ`; the two configuration
fields that are floats in Python (`ROUGE_W_Weight`, `p`) are carried as
their formatted string form, which is the only way the source consumes
them (string interpolation into the command line and the regex patterns).
-/

namespace PythonRouge

/-- Python exception kinds raised by the source. -/
inductive PyError where
  | assertionError (msg : String)
  | valueError (msg : String)
  | indexError
  | calledProcessError (output : String)
deriving DecidableEq, Repr

/-- The `RunConfiguration` fields stored by `PythonROUGE.__init__`
(lines 63-79).  `ROUGE_W_Weight` and `p` hold the `str()` form of the
Python floats; `ROUGE_path`/`data_path` are kept as given
(`os.path.abspath` is modelled as the identity). -/
structure RougeConfig where
  ROUGE_path : String
  data_path : String
  n_gram : Int
  ROUGE_SU4 : Bool
  ROUGE_L : Bool
  ROUGE_W : Bool
  ROUGE_W_Weight : String
  stemming : Bool
  stopwords : Bool
  word_level : Bool
  length_limit : Bool
  length : Int
  use_cf : Bool
  cf : Int
  scoring_formula : String
  resampling : Bool
  samples : Int
  favor : Bool
  p : String
deriving DecidableEq, Repr

/-- The constructor defaults (lines 12-31), with the two required paths
filled in with placeholder values. -/
def defaultConfig : RougeConfig :=
  { ROUGE_path := "ROUGE-1.5.5.pl"
    data_path := "data"
    n_gram := 2
    ROUGE_SU4 := true
    ROUGE_L := false
    ROUGE_W := false
    ROUGE_W_Weight := "1.2"
    stemming := true
    stopwords := false
    word_level := true
    length_limit := true
    length := 100
    use_cf := false
    cf := 95
    scoring_formula := "average"
    resampling := true
    samples := 1000
    favor := true
    p := "0.5" }

/-- `_get_rouge_cmd` (lines 83-123).  The two `assert` statements become
`AssertionError` results, the final `else: raise ValueError` (line 116) a
`ValueError`; Python's truthiness test `elif self.scoring_formula:` is the
test for a nonempty string.  The checks are ordered as the Python
statements execute: the `n_gram` assert (line 88) first, the length assert
(line 99) only under `length_limit`, the scoring-formula check last. -/
def getRougeCmd (c : RougeConfig) : Except PyError (List String) :=
  if c.n_gram ≤ 0 then .error (.assertionError "n-gram should be positive.")
  else if c.length_limit ∧ c.length ≤ 0 then
    .error (.assertionError "Length limit should be positive.")
  else if c.scoring_formula ≠ "average" ∧ c.scoring_formula = "" then
    .error (.valueError "Choose scoring formula between 'average' and 'best'.")
  else .ok
    (["perl", c.ROUGE_path, "-e", c.data_path, "-a"]
      ++ ["-n", toString c.n_gram]
      ++ (if c.ROUGE_SU4 then ["-2", "4", "-u"] else [])
      ++ (if !c.ROUGE_L then ["-x"] else [])
      ++ (if c.ROUGE_W then ["-w", c.ROUGE_W_Weight] else [])
      ++ (if c.length_limit then
            if c.word_level then ["-l", toString c.length]
            else ["-b", toString c.length]
          else [])
      ++ (if c.stemming then ["-m"] else [])
      ++ (if c.stopwords then ["-s"] else [])
      ++ (if c.use_cf then ["-c", toString c.cf] else [])
      ++ (if c.scoring_formula = "average" then ["-f", "A"] else ["-f", "B"])
      ++ (if c.resampling then ["-r", toString c.samples] else [])
      ++ (if c.favor then ["-p", c.p] else []))

/-- `l` contains the two-element segment `"-f", "B"` contiguously. -/
def ContainsFB (l : List String) : Prop :=
  ∃ s t, l = s ++ "-f" :: "B" :: t

/-- Split a character list at newline characters; mirrors Python
`str.split("\n")` (line 214), which always returns at least one, possibly
empty, part. -/
def splitNl : List Char → List (List Char)
  | [] => [[]]
  | c :: cs =>
    if c = '\n' then [] :: splitNl cs
    else
      match splitNl cs with
      | [] => [[c]]
      | h :: t => (c :: h) :: t

/-- Python `str.strip()` (line 214), for ASCII whitespace. -/
def pyStrip (s : String) : String :=
  String.mk
    (((s.data.dropWhile Char.isWhitespace).reverse.dropWhile
      Char.isWhitespace).reverse)

/-- The pattern matches at the head of `s`.  A `.` in the pattern matches
any character: the dot is the only regex metacharacter occurring in the
source's patterns (it enters via the interpolated `ROUGE_W_Weight`, e.g.
`ROUGE-W-1.2`); every other pattern character stands for itself. -/
def patMatchesAt : List Char → List Char → Bool
  | [], _ => true
  | _ :: _, [] => false
  | p :: ps, c :: cs => (p = '.' || p = c) && patMatchesAt ps cs

/-- A character matched by the capture class `[0-9.]`. -/
def isNumChar (c : Char) : Bool := c.isDigit || c = '.'

/-- `re.findall(pattern + "([0-9.]+)", line)[0]`: the capture group of the
leftmost match, scanning left to right; at each position the literal
pattern must match and the greedy capture is the maximal nonempty run of
digits and dots that follows.  `none` models an empty `findall` result. -/
def findCapture (pat : List Char) : List Char → Option (List Char)
  | [] => none
  | s@(_ :: rest) =>
    if patMatchesAt pat s then
      let num := (s.drop pat.length).takeWhile isNumChar
      if num.isEmpty then findCapture pat rest else some num
    else findCapture pat rest

def natOfDigits (l : List Char) : ℕ :=
  l.foldl (fun a c => 10 * a + (c.toNat - '0'.toNat)) 0

/-- Python `float()` applied to a `[0-9.]+` capture: defined exactly when
the string has at least one digit and at most one dot (`float` raises
`ValueError` otherwise); the value is kept exact as a rational. -/
def pyFloat (l : List Char) : Option ℚ :=
  if l.any Char.isDigit ∧ l.count '.' ≤ 1 then
    let intPart := l.takeWhile (fun c => c ≠ '.')
    let fracPart := (l.dropWhile (fun c => c ≠ '.')).drop 1
    some ((natOfDigits intPart : ℚ) + natOfDigits fracPart / 10 ^ fracPart.length)
  else none

def pyFloatE (l : List Char) : Except PyError ℚ :=
  match pyFloat l with
  | some v => .ok v
  | none =>
    .error (.valueError ("could not convert string to float: " ++ String.mk l))

/-- The parsed result set: metric name to score, in insertion order. -/
abbrev ResultDict := List (String × ℚ)

def keysOf (res : ResultDict) : List String := res.map Prod.fst

/-- Python dict assignment `result[k] = v`: overwrite in place when the
key is present, append otherwise. -/
def insertKV (res : ResultDict) (k : String) (v : ℚ) : ResultDict :=
  if res.any (fun p => p.1 == k) then
    res.map (fun p => if p.1 = k then (k, v) else p)
  else res ++ [(k, v)]

/-- The regex patterns of one metric family (lines 219-221 and
analogous): `'A ROUGE-<tag> Average_<R|P|F>: '` before the capture
group. -/
def patR (tag : String) : List Char := ("A ROUGE-" ++ tag ++ " Average_R: ").data

def patP (tag : String) : List Char := ("A ROUGE-" ++ tag ++ " Average_P: ").data

def patF (tag : String) : List Char := ("A ROUGE-" ++ tag ++ " Average_F: ").data

/-- First half of the per-family block of `output_to_dict`: the
`if <r_match>:` part (lines 222-228 for SU4, and analogous for L/W/N). -/
def familyUpdateR (res : ResultDict) (base : String) (rM : Option (List Char))
    (recall_only f_measure_only : Bool) : Except PyError ResultDict :=
  match rM with
  | some m =>
    if recall_only then (pyFloatE m).map (insertKV res base)
    else if f_measure_only then .ok res
    else (pyFloatE m).map (insertKV res (base ++ "-R"))
  | none => .ok res

/-- Second half of the per-family block: the `if not recall_only:` part
(lines 229-236 for SU4, and analogous for L/W/N). -/
def familyUpdatePF (res : ResultDict) (base : String)
    (pM fM : Option (List Char)) (recall_only f_measure_only : Bool) :
    Except PyError ResultDict :=
  if recall_only then .ok res
  else if f_measure_only then
    match fM with
    | some m => (pyFloatE m).map (insertKV res base)
    | none => .ok res
  else
    match pM with
    | some m => (pyFloatE m).map (insertKV res (base ++ "-P"))
    | none =>
      match fM with
      | some m => (pyFloatE m).map (insertKV res (base ++ "-F"))
      | none => .ok res

/-- The complete per-family block of `output_to_dict`, shared verbatim by
the SU4 (lines 222-236), L (241-255), W (266-285) and N (289-303)
families: `rM`/`pM`/`fM` are the `findall` results for the Average_R/P/F
patterns, `base` the metric key without suffix.  `float` is applied
exactly where the source applies it, so a malformed capture raises only
on the branches that convert it. -/
def familyUpdate (res : ResultDict) (base : String)
    (rM pM fM : Option (List Char)) (recall_only f_measure_only : Bool) :
    Except PyError ResultDict :=
  match familyUpdateR res base rM recall_only f_measure_only with
  | .error e => .error e
  | .ok res1 => familyUpdatePF res1 base pM fM recall_only f_measure_only

/-- The body of the `for line in outputs` loop (lines 217-304) for one
line: the SU4, L and W families run only under their configuration
toggles, the N family always runs for the currently tracked order `n`,
and `n` advances exactly when the N-family F pattern matched
(line 304). -/
def parseLineData (c : RougeConfig) (recall_only f_measure_only : Bool)
    (st : ResultDict × ℕ) (d : List Char) : Except PyError (ResultDict × ℕ) :=
  match (if c.ROUGE_SU4 then
      familyUpdate st.1 "ROUGE-SU4" (findCapture (patR "SU4") d)
        (findCapture (patP "SU4") d) (findCapture (patF "SU4") d)
        recall_only f_measure_only
    else .ok st.1) with
  | .error e => .error e
  | .ok res1 =>
    match (if c.ROUGE_L then
        familyUpdate res1 "ROUGE-L" (findCapture (patR "L") d)
          (findCapture (patP "L") d) (findCapture (patF "L") d)
          recall_only f_measure_only
      else .ok res1) with
    | .error e => .error e
    | .ok res2 =>
      match (if c.ROUGE_W then
          familyUpdate res2 ("ROUGE-W-" ++ c.ROUGE_W_Weight)
            (findCapture (patR ("W-" ++ c.ROUGE_W_Weight)) d)
            (findCapture (patP ("W-" ++ c.ROUGE_W_Weight)) d)
            (findCapture (patF ("W-" ++ c.ROUGE_W_Weight)) d)
            recall_only f_measure_only
        else .ok res2) with
      | .error e => .error e
      | .ok res3 =>
        match familyUpdate res3 ("ROUGE-" ++ Nat.repr st.2)
            (findCapture (patR (Nat.repr st.2)) d)
            (findCapture (patP (Nat.repr st.2)) d)
            (findCapture (patF (Nat.repr st.2)) d)
            recall_only f_measure_only with
        | .error e => .error e
        | .ok res4 =>
          .ok (res4,
            if (findCapture (patF (Nat.repr st.2)) d).isSome then st.2 + 1
            else st.2)

def parseLine (c : RougeConfig) (recall_only f_measure_only : Bool)
    (st : ResultDict × ℕ) (line : String) : Except PyError (ResultDict × ℕ) :=
  parseLineData c recall_only f_measure_only st line.data

/-- The `for` loop of `output_to_dict`, threading `(result, n)` through
the lines in order; an exception aborts the loop. -/
def parseLines (c : RougeConfig) (recall_only f_measure_only : Bool) :
    ResultDict × ℕ → List String → Except PyError (ResultDict × ℕ)
  | st, [] => .ok st
  | st, line :: rest =>
    match parseLine c recall_only f_measure_only st line with
    | .error e => .error e
    | .ok st' => parseLines c recall_only f_measure_only st' rest

/-- `output_to_dict` (lines 207-306).  The captured output is modelled as
already-decoded text, so the `output.decode("utf-8")` step (line 213) is
the identity.  The mutual-exclusion `assert` (lines 209-211) fires before
any line is examined. -/
def output_to_dict (c : RougeConfig) (output : String)
    (recall_only f_measure_only : Bool) : Except PyError ResultDict :=
  if recall_only && f_measure_only then
    .error (.assertionError
      "At least one of recall_only and f_measure_only must be False.")
  else
    match parseLines c recall_only f_measure_only ([], 1)
        ((splitNl (pyStrip output).data).map String.mk) with
    | .error e => .error e
    | .ok st => .ok st.1

/-- A `SummarySet`: documents, each a list of summary variants, each a
list of sentence strings (the "triple list" of the source docstring). -/
abbrev Corpus := List (List (List String))

/-- Python `sep.join(parts)`. -/
def joinWith (sep : String) : List String → String
  | [] => ""
  | [s] => s
  | s :: rest => s ++ sep ++ joinWith sep rest

/-- The content written for one summary instance:
`f.writelines("\n".join(sents) + "\n")` (lines 162 and 172). -/
def stagedFileContent (sents : List String) : String :=
  joinWith "\n" sents ++ "\n"

/-- Modelled from the spec: reading a staged file back as its list of
lines.  The source never reads staged files, so the read-back direction
of the round trip is taken from the spec's words "containing each
sentence on its own line with a final trailing newline": the content is
split at newline characters, and the empty final piece produced by a
trailing newline is not a line of its own. -/
def readLines (c : String) : List String :=
  if c.data = [] then []
  else
    let parts := (splitNl c.data).map String.mk
    if parts.getLast? = some "" then parts.dropLast else parts

/-- The filenames `"{}_{}.txt".format(i, j)` generated per document `i`
and variant `j` (lines 160 and 170). -/
def fileNames (corpus : Corpus) : List (List String) :=
  corpus.enum.map fun p =>
    p.2.enum.map fun q => Nat.repr p.1 ++ "_" ++ Nat.repr q.1 ++ ".txt"

/-- `MODEL_IDS` (line 10). -/
def MODEL_IDS : List String := ["A", "B", "C", "D", "E", "F", "G"]

/-- One `<EVAL>` block of the job descriptor: its 1-based ID, the peer
file references with their numeric IDs, and the model file references
with their letter IDs. -/
structure EvalUnit where
  eid : ℕ
  peers : List (ℕ × String)
  models : List (String × String)
deriving DecidableEq, Repr

/-- The `<M ID="{}">` list of one EVAL block (lines 191-194):
`self.MODEL_IDS[j]` raises `IndexError` when a document has more
reference variants than available identifiers. -/
def buildModels (j : ℕ) : List String → Except PyError (List (String × String))
  | [] => .ok []
  | fn :: rest =>
    match MODEL_IDS.get? j with
    | some mid =>
      match buildModels (j + 1) rest with
      | .error e => .error e
      | .ok tl => .ok ((mid, fn) :: tl)
    | none => .error .indexError

/-- One `<EVAL ID="{}">` block per zipped document pair (lines 180-195):
the block ID is `i + 1` (line 181), peers get 1-based numeric IDs
(line 188), models letter IDs (line 193). -/
def buildEvalUnitsAux (i : ℕ) :
    List (List String × List String) → Except PyError (List EvalUnit)
  | [] => .ok []
  | (sfl, rl) :: rest =>
    match buildModels 0 rl with
    | .error e => .error e
    | .ok ms =>
      match buildEvalUnitsAux (i + 1) rest with
      | .error e => .error e
      | .ok tl =>
        .ok ({ eid := i + 1,
               peers := sfl.enum.map fun q => (q.1 + 1, q.2),
               models := ms } :: tl)

/-- The structured content of `config.xml` built by the
`zip(sum_file_lists, ref_file_lists)` loop (line 180). -/
def buildEvalUnits (sumFl refFl : List (List String)) :
    Except PyError (List EvalUnit) :=
  buildEvalUnitsAux 0 (sumFl.zip refFl)

/-- The rendered `config.xml` text (lines 176-198). -/
def configXml (summaryPath referencePath : String)
    (units : List EvalUnit) : String :=
  "<ROUGE-EVAL version=\"1.0\">\n" ++
  joinWith "" (units.map fun u =>
    "<EVAL ID=\"" ++ Nat.repr u.eid ++ "\">\n" ++
    "<PEER-ROOT>" ++ summaryPath ++ "</PEER-ROOT>\n" ++
    "<MODEL-ROOT>" ++ referencePath ++ "</MODEL-ROOT>\n" ++
    "<INPUT-FORMAT TYPE=\"SPL\">\n\"</INPUT-FORMAT>\n" ++
    "<PEERS>\n" ++
    joinWith "" (u.peers.map fun q =>
      "<P ID=\"" ++ Nat.repr q.1 ++ "\">" ++ q.2 ++ "</P>\n") ++
    "</PEERS>\n" ++
    "<MODELS>\n" ++
    joinWith "" (u.models.map fun q =>
      "<M ID=\"" ++ q.1 ++ "\">" ++ q.2 ++ "</M>\n") ++
    "</MODELS>\n" ++
    "</EVAL>\n") ++
  "</ROUGE-EVAL>\n"

/-- The filesystem effects of one `convert_and_config` call: the
directory used, the staged files (filename and content, per document)
and the structured and rendered job descriptor. -/
structure StagedRun where
  output_dir : String
  summary_path : String
  reference_path : String
  sum_files : List (List (String × String))
  ref_files : List (List (String × String))
  units : List EvalUnit
  config_xml : String
  config_path : String
deriving Repr

/-- `convert_and_config` (lines 125-200) as a pure description of its
effects.  The size assert (lines 143-144, with the source's spelling)
fires before any directory is created; `tempName` stands for the fresh
name `mkdtemp()` (line 146) would produce, used exactly when
`output_dir` is empty (Python truthiness of the default `""`). -/
def convertAndConfig (summary reference : Corpus)
    (output_dir : String) (tempName : String) : Except PyError StagedRun :=
  if summary.length ≠ reference.length then
    .error (.assertionError "Size of summary and refernece is different.")
  else
    match buildEvalUnits (fileNames summary) (fileNames reference) with
    | .error e => .error e
    | .ok units =>
      .ok { output_dir := if output_dir = "" then tempName else output_dir
            summary_path :=
              (if output_dir = "" then tempName else output_dir) ++ "/system"
            reference_path :=
              (if output_dir = "" then tempName else output_dir) ++ "/reference"
            sum_files := ((fileNames summary).zip summary).map fun p =>
              (p.1.zip p.2).map fun q => (q.1, stagedFileContent q.2)
            ref_files := ((fileNames reference).zip reference).map fun p =>
              (p.1.zip p.2).map fun q => (q.1, stagedFileContent q.2)
            units := units
            config_xml := configXml
              ((if output_dir = "" then tempName else output_dir) ++ "/system")
              ((if output_dir = "" then tempName else output_dir) ++ "/reference")
              units
            config_path :=
              (if output_dir = "" then tempName else output_dir) ++ "/config.xml" }

/-- What `evaluate` returns: the raw captured output, or the parsed
dictionary when `to_dict` is set. -/
inductive EvalResult where
  | raw (output : String)
  | dict (d : ResultDict)
deriving DecidableEq, Repr

/-- `evaluate` (lines 308-322) as a transition on the set `fs` of
directories existing on disk.  `evaluate` passes no output directory to
`convert_and_config` (line 315), so staging always happens in the fresh
`mkdtemp()` directory `tempName`; the size assert fires before that
directory is created, while a config-building `IndexError` fires after.
`procResult` is the outcome of the external `perl` process (line 204),
`.error` standing for a non-zero exit (`CalledProcessError` carrying the
captured output).  `shutil.rmtree` (line 317) runs only after the
external call returns: it is not reached when `run_rouge` raises.  The
dict conversion (lines 319-320) happens after the removal, with both
parser mode flags left at their `False` defaults. -/
def evaluateRun (c : RougeConfig) (summary reference : Corpus)
    (to_dict : Bool) (tempName : String) (procResult : Except String String)
    (fs : List String) : Except PyError EvalResult × List String :=
  match convertAndConfig summary reference "" tempName with
  | .error e =>
    (.error e, if summary.length ≠ reference.length then fs else tempName :: fs)
  | .ok _run =>
    match procResult with
    | .error out => (.error (.calledProcessError out), tempName :: fs)
    | .ok output =>
      match (if to_dict then
          (output_to_dict c output false false).map EvalResult.dict
        else .ok (.raw output)) with
      | .error e => (.error e, (tempName :: fs).erase tempName)
      | .ok r => (.ok r, (tempName :: fs).erase tempName)

/-- The four keys a metric family can contribute: the bare name and its
`-R`/`-P`/`-F` suffixed forms. -/
def famKeys (base : String) : List String :=
  [base, base ++ "-R", base ++ "-P", base ++ "-F"]

/-- The key ends in `-R`, `-P` or `-F`. -/
def EndsRPF (k : String) : Prop :=
  (∃ b, k = b ++ "-R") ∨ (∃ b, k = b ++ "-P") ∨ (∃ b, k = b ++ "-F")

/-! ## Theorems -/

theorem containsFB_append_left {l : List String} (m : List String)
    (h : ContainsFB l) : ContainsFB (l ++ m) := by
  obtain ⟨s, t, rfl⟩ := h
  exact ⟨s, t ++ m, by simp⟩

theorem containsFB_append_right (l : List String) {m : List String}
    (h : ContainsFB m) : ContainsFB (l ++ m) := by
  obtain ⟨s, t, rfl⟩ := h
  exact ⟨l ++ s, t, by simp⟩

/-- C5: command construction fails with the `AssertionError`
"n-gram should be positive." whenever `n_gram ≤ 0`, fails with the
`AssertionError` "Length limit should be positive." whenever the length
limit is enabled with `length ≤ 0`, and under the preconditions
`n_gram > 0` and (`length_limit` off or `length > 0`) raises neither of
these two validation errors. -/
theorem rouge_cmd_validation (c : RougeConfig) :
    (c.n_gram ≤ 0 →
      getRougeCmd c = .error (.assertionError "n-gram should be positive.")) ∧
    (0 < c.n_gram → c.length_limit = true → c.length ≤ 0 →
      getRougeCmd c = .error (.assertionError "Length limit should be positive.")) ∧
    (0 < c.n_gram → (c.length_limit = true → 0 < c.length) →
      getRougeCmd c ≠ .error (.assertionError "n-gram should be positive.") ∧
      getRougeCmd c ≠ .error (.assertionError "Length limit should be positive.")) := by
  refine ⟨fun h => ?_, fun h1 h2 h3 => ?_, fun h1 h2 => ?_⟩
  · rw [getRougeCmd, if_pos h]
  · rw [getRougeCmd, if_neg (by omega), if_pos ⟨h2, h3⟩]
  · rw [getRougeCmd, if_neg (by omega),
      if_neg (fun h => by have := h2 h.1; omega)]
    split
    · exact ⟨by simp, by simp⟩
    · exact ⟨by simp, by simp⟩

theorem pyFloatE_map_error {g : ℚ → ResultDict} {l : List Char} {e : PyError}
    (h : (pyFloatE l).map g = .error e) : ∃ m, e = .valueError m := by
  unfold pyFloatE at h
  cases hp : pyFloat l with
  | some v => rw [hp] at h; simp [Except.map] at h
  | none => rw [hp] at h; simp [Except.map] at h; exact ⟨_, h.symm⟩

theorem familyUpdateR_error_valueError {res : ResultDict} {base : String}
    {rM : Option (List Char)} {r f : Bool} {e : PyError}
    (h : familyUpdateR res base rM r f = .error e) : ∃ m, e = .valueError m := by
  unfold familyUpdateR at h
  split at h
  · split at h
    · exact pyFloatE_map_error h
    · split at h
      · cases h
      · exact pyFloatE_map_error h
  · cases h

theorem familyUpdatePF_error_valueError {res : ResultDict} {base : String}
    {pM fM : Option (List Char)} {r f : Bool} {e : PyError}
    (h : familyUpdatePF res base pM fM r f = .error e) :
    ∃ m, e = .valueError m := by
  unfold familyUpdatePF at h
  split at h
  · cases h
  · split at h
    · split at h
      · exact pyFloatE_map_error h
      · cases h
    · split at h
      · exact pyFloatE_map_error h
      · split at h
        · exact pyFloatE_map_error h
        · cases h

theorem familyUpdate_error_valueError {res : ResultDict} {base : String}
    {rM pM fM : Option (List Char)} {r f : Bool} {e : PyError}
    (h : familyUpdate res base rM pM fM r f = .error e) :
    ∃ m, e = .valueError m := by
  unfold familyUpdate at h
  split at h
  · rename_i heq
    cases h
    exact familyUpdateR_error_valueError heq
  · exact familyUpdatePF_error_valueError h

theorem parseLineData_error_valueError {c : RougeConfig} {r f : Bool}
    {st : ResultDict × ℕ} {d : List Char} {e : PyError}
    (h : parseLineData c r f st d = .error e) : ∃ m, e = .valueError m := by
  unfold parseLineData at h
  split at h
  · rename_i heq
    cases h
    split at heq
    · exact familyUpdate_error_valueError heq
    · cases heq
  · split at h
    · rename_i heq
      cases h
      split at heq
      · exact familyUpdate_error_valueError heq
      · cases heq
    · split at h
      · rename_i heq
        cases h
        split at heq
        · exact familyUpdate_error_valueError heq
        · cases heq
      · split at h
        · rename_i heq
          cases h
          exact familyUpdate_error_valueError heq
        · cases h

theorem parseLines_error_valueError {c : RougeConfig} {r f : Bool}
    {lines : List String} {st : ResultDict × ℕ} {e : PyError}
    (h : parseLines c r f st lines = .error e) : ∃ m, e = .valueError m := by
  induction lines generalizing st with
  | nil => cases h
  | cons line rest ih =>
    unfold parseLines at h
    split at h
    · rename_i heq
      cases h
      exact parseLineData_error_valueError heq
    · exact ih h

theorem rouge_cmd_validation_witness :
    getRougeCmd { defaultConfig with n_gram := 0 } =
      .error (.assertionError "n-gram should be positive.") :=
  (rouge_cmd_validation _).1 (by decide)

/-- C2 counterexample: a configuration whose `scoring_formula` is the
empty string (which is not `"average"`) makes command construction raise
the `ValueError` of line 116 instead of producing a `-f B` argument
pair. -/
theorem scoring_formula_empty_raises :
    ({ defaultConfig with scoring_formula := "" } : RougeConfig).scoring_formula
        ≠ "average" ∧
    getRougeCmd { defaultConfig with scoring_formula := "" } =
      .error (.valueError "Choose scoring formula between 'average' and 'best'.") :=
  ⟨by decide, rfl⟩

/-- C2 (amended): for every configuration passing the n-gram and length
validations, whose `scoring_formula` is neither `"average"` nor the empty
string, command construction succeeds and the argument list contains
`-f` immediately followed by `B`. -/
theorem scoring_formula_fallback_best (c : RougeConfig)
    (hn : 0 < c.n_gram) (hl : c.length_limit = true → 0 < c.length)
    (hs : c.scoring_formula ≠ "average") (hne : c.scoring_formula ≠ "") :
    ∃ cmd, getRougeCmd c = .ok cmd ∧ ContainsFB cmd := by
  rw [getRougeCmd, if_neg (by omega),
    if_neg (fun h => by have := hl h.1; omega),
    if_neg (fun h => hne h.2)]
  refine ⟨_, rfl, ?_⟩
  apply containsFB_append_left
  apply containsFB_append_left
  apply containsFB_append_right
  rw [if_neg hs]
  exact ⟨[], [], rfl⟩

theorem scoring_formula_fallback_best_witness :
    ∃ cmd, getRougeCmd { defaultConfig with scoring_formula := "best" } = .ok cmd ∧
      ContainsFB cmd :=
  scoring_formula_fallback_best _ (by decide) (fun _ => by decide)
    (by decide) (by decide)

/-- C3: parsing the single output line `"A ROUGE-1 Average_R: 0.45231"`
under the default configuration with both mode flags false yields exactly
the mapping `{"ROUGE-1-R": 0.45231}`, and the same line with
`recall_only=True`, `f_measure_only=False` yields exactly
`{"ROUGE-1": 0.45231}`. -/
theorem parse_single_rouge1_line :
    ∃ q : ℚ, q = 45231 / 100000 ∧
      output_to_dict defaultConfig "A ROUGE-1 Average_R: 0.45231" false false =
        .ok [("ROUGE-1-R", q)] ∧
      output_to_dict defaultConfig "A ROUGE-1 Average_R: 0.45231" true false =
        .ok [("ROUGE-1", q)] := by
  refine ⟨_, ?_, rfl, rfl⟩
  have h1 : List.takeWhile isNumChar
      (List.drop (patR (Nat.repr 1)).length
        ['A', ' ', 'R', 'O', 'U', 'G', 'E', '-', '1', ' ', 'A', 'v', 'e', 'r',
          'a', 'g', 'e', '_', 'R', ':', ' ', '0', '.', '4', '5', '2', '3', '1'])
      = ['0', '.', '4', '5', '2', '3', '1'] := by decide
  rw [h1]
  have h2 : List.takeWhile (fun c => decide (c ≠ '.'))
      ['0', '.', '4', '5', '2', '3', '1'] = ['0'] := by decide
  have h3 : List.dropWhile (fun c => decide (c ≠ '.'))
      ['0', '.', '4', '5', '2', '3', '1'] = ['.', '4', '5', '2', '3', '1'] := by decide
  rw [h2, h3]
  have h4 : List.drop 1 ['.', '4', '5', '2', '3', '1'] = ['4', '5', '2', '3', '1'] := by decide
  rw [h4]
  have h5 : natOfDigits ['0'] = 0 := by decide
  have h6 : natOfDigits ['4', '5', '2', '3', '1'] = 45231 := by decide
  have h7 : List.length ['4', '5', '2', '3', '1'] = 5 := by decide
  rw [h5, h6, h7]
  norm_num

/-- C4: for every configuration and captured output, `output_to_dict`
with both mode flags set fails with the mutual-exclusion `AssertionError`
before any line is parsed (for every output, parsed or not); with at most
one of the two flags set, no `AssertionError` is raised. -/
theorem output_to_dict_flag_validation (c : RougeConfig) (output : String) :
    output_to_dict c output true true =
      .error (.assertionError
        "At least one of recall_only and f_measure_only must be False.") ∧
    (∀ recall_only f_measure_only : Bool,
      ¬(recall_only = true ∧ f_measure_only = true) →
      ∀ msg, output_to_dict c output recall_only f_measure_only ≠
        .error (.assertionError msg)) := by
  constructor
  · rfl
  · intro r f hrf msg
    have hb : (r && f) = false := by
      cases r <;> cases f <;> simp_all
    unfold output_to_dict
    rw [if_neg (by simp [hb])]
    split
    · rename_i e heq
      obtain ⟨m, hm⟩ := parseLines_error_valueError heq
      subst hm
      simp
    · simp

/-- C1 counterexample: for the equal-length one-document pair
`[[["a"]]]`, `[[["b"]]]`, an external-process failure makes `evaluate`
propagate `CalledProcessError` before reaching `shutil.rmtree`: starting
from an empty disk, the temporary staging directory `/tmp/tmp123` still
exists after the call. -/
theorem evaluate_leaks_on_process_error :
    (evaluateRun defaultConfig [[["a"]]] [[["b"]]] false "/tmp/tmp123"
        (.error "exit 1") []).1 = .error (.calledProcessError "exit 1") ∧
    "/tmp/tmp123" ∈ (evaluateRun defaultConfig [[["a"]]] [[["b"]]] false
        "/tmp/tmp123" (.error "exit 1") []).2 :=
  ⟨rfl, by decide⟩

/-- C1 (amended): with a fresh `mkdtemp()` name, the staging directory no
longer exists whenever `evaluate` returns normally; but after an
external-process failure the directory still exists, because the
`shutil.rmtree` call (line 317) is never reached on that path. -/
theorem evaluate_cleanup (c : RougeConfig) (summary reference : Corpus)
    (to_dict : Bool) (tempName : String) (procResult : Except String String)
    (fs : List String) (hfresh : tempName ∉ fs) :
    (∀ r fs', evaluateRun c summary reference to_dict tempName procResult fs =
      (.ok r, fs') → tempName ∉ fs') ∧
    (∀ run out fs' res,
      convertAndConfig summary reference "" tempName = .ok run →
      procResult = .error out →
      evaluateRun c summary reference to_dict tempName procResult fs =
        (res, fs') → tempName ∈ fs') := by
  constructor
  · intro r fs' h
    unfold evaluateRun at h
    split at h
    · simp at h
    · split at h
      · simp at h
      · split at h
        · simp at h
        · obtain ⟨-, h2⟩ := Prod.mk.injEq .. ▸ h
          rw [← h2, List.erase_cons_head]
          exact hfresh
  · intro run out fs' res hconv hproc h
    unfold evaluateRun at h
    rw [hconv, hproc] at h
    obtain ⟨-, h2⟩ := Prod.mk.injEq .. ▸ h
    rw [← h2]
    exact List.mem_cons_self _ _

theorem evaluate_cleanup_witness :
    "/tmp/tmpfresh" ∉ (evaluateRun defaultConfig [[["a"]]] [[["b"]]] false
      "/tmp/tmpfresh" (.ok "out") []).2 :=
  (evaluate_cleanup defaultConfig [[["a"]]] [[["b"]]] false "/tmp/tmpfresh"
      (.ok "out") [] (by simp)).1 (.raw "out")
    (evaluateRun defaultConfig [[["a"]]] [[["b"]]] false "/tmp/tmpfresh"
      (.ok "out") []).2 rfl

/-- C9 counterexample: `evaluate` has no output-directory parameter; on a
concrete call, even with a caller-created directory `mydir` on disk, the
staging happens in the freshly generated temporary name: the directory
the failed call leaves behind is `/tmp/tmpXYZ`, and `mydir` was never
used for staging. -/
theorem evaluate_ignores_existing_dir :
    (evaluateRun defaultConfig [[["x"]]] [[["y"]]] false "/tmp/tmpXYZ"
        (.error "boom") ["mydir"]).2 = ["/tmp/tmpXYZ", "mydir"] := rfl

theorem output_to_dict_flag_validation_witness :
    output_to_dict defaultConfig "A ROUGE-1 Average_R: 0.45231" true true =
      .error (.assertionError
        "At least one of recall_only and f_measure_only must be False.") ∧
    output_to_dict defaultConfig "A ROUGE-1 Average_R: 0.45231" true false ≠
      .error (.assertionError "boom") :=
  ⟨(output_to_dict_flag_validation defaultConfig _).1,
   (output_to_dict_flag_validation defaultConfig _).2 true false
     (by simp) "boom"⟩

theorem buildModels_ok : ∀ (rl : List String) (j : ℕ),
    j + rl.length ≤ MODEL_IDS.length →
    ∃ ms, buildModels j rl = .ok ms ∧
      ms.map Prod.fst = (MODEL_IDS.drop j).take rl.length ∧
      ms.map Prod.snd = rl := by
  intro rl
  induction rl with
  | nil => exact fun j hj => ⟨[], rfl, by simp, rfl⟩
  | cons fn rest ih =>
    intro j hj
    have hjlt : j < MODEL_IDS.length := by
      simp only [List.length_cons] at hj; omega
    obtain ⟨ms, hms, hfst, hsnd⟩ := ih (j + 1)
      (by simp only [List.length_cons] at hj; omega)
    refine ⟨(MODEL_IDS.get ⟨j, hjlt⟩, fn) :: ms, ?_, ?_, ?_⟩
    · simp only [buildModels]
      rw [List.get?_eq_get hjlt, hms]
    · simp only [List.map_cons, hfst, List.length_cons]
      rw [List.drop_eq_getElem_cons hjlt, List.take_succ_cons]
      simp [List.get_eq_getElem]
    · simp [hsnd]

theorem peers_map_fst (l : List String) :
    ((l.enum.map fun q => (q.1 + 1, q.2)).map Prod.fst) =
      List.range' 1 (l.enum.map fun q => (q.1 + 1, q.2)).length := by
  rw [List.map_map, List.length_map, List.enum_length]
  have h1 : (Prod.fst ∘ fun q : ℕ × String => (q.1 + 1, q.2)) =
      (fun n => n + 1) ∘ Prod.fst := rfl
  rw [h1, ← List.map_map, List.enum_map_fst, List.range'_eq_map_range]
  exact List.map_congr_left fun a _ => Nat.add_comm a 1

theorem buildEvalUnitsAux_ok :
    ∀ (pairs : List (List String × List String)) (i : ℕ),
    (∀ p ∈ pairs, p.2.length ≤ MODEL_IDS.length) →
    ∃ units, buildEvalUnitsAux i pairs = .ok units ∧
      units.length = pairs.length ∧
      units.map EvalUnit.eid = List.range' (i + 1) pairs.length ∧
      ∀ u ∈ units,
        u.peers.map Prod.fst = List.range' 1 u.peers.length ∧
        u.models.map Prod.fst = MODEL_IDS.take u.models.length ∧
        (u.models.map Prod.fst).Nodup := by
  intro pairs
  induction pairs with
  | nil => exact fun i _ => ⟨[], rfl, rfl, rfl, by simp⟩
  | cons p rest ih =>
    obtain ⟨sfl, rl⟩ := p
    intro i hcap
    obtain ⟨ms, hms, hfst, hsnd⟩ := buildModels_ok rl 0
      (by simpa using hcap (sfl, rl) (by simp))
    obtain ⟨units, hunits, hlen, heids, hprops⟩ :=
      ih (i + 1) (fun p hp => hcap p (by simp [hp]))
    have hmslen : ms.length = rl.length := by
      rw [← List.length_map ms Prod.snd, hsnd]
    refine ⟨{ eid := i + 1,
              peers := sfl.enum.map fun q => (q.1 + 1, q.2),
              models := ms } :: units, ?_, ?_, ?_, ?_⟩
    · simp only [buildEvalUnitsAux]
      rw [hms, hunits]
    · simp [hlen]
    · simp only [List.map_cons, List.length_cons, List.range'_succ]
      rw [heids]
    · intro u hu
      rcases List.mem_cons.mp hu with hu0 | hu'
      · subst hu0
        refine ⟨peers_map_fst sfl, ?_, ?_⟩
        · simp only []
          rw [hfst, List.drop_zero, hmslen]
        · rw [hfst]
          exact ((MODEL_IDS.drop 0).take_sublist rl.length).nodup
            (by rw [List.drop_zero]; decide)
      · exact hprops u hu'



theorem zip_snd_cap (l : List (List String)) (reference : Corpus)
    (hcap : ∀ doc ∈ reference, doc.length ≤ 7) :
    ∀ p ∈ l.zip (fileNames reference), p.2.length ≤ MODEL_IDS.length := by
  intro p hp
  obtain ⟨a, b⟩ := p
  have hb : b ∈ fileNames reference := (List.of_mem_zip hp).2
  unfold fileNames at hb
  obtain ⟨q, hq, hqb⟩ := List.mem_map.mp hb
  obtain ⟨idx, doc⟩ := q
  have hdoc : doc ∈ reference := by
    obtain ⟨hlt, hd⟩ := List.mem_enum hq
    exact hd ▸ List.getElem_mem hlt
  have : b.length = doc.length := by
    rw [← hqb]; simp [List.enum_length]
  rw [this]
  exact hcap doc hdoc

theorem fileNames_length (corpus : Corpus) :
    (fileNames corpus).length = corpus.length := by
  simp [fileNames, List.enum_length]

/-- C7 (amended): for corpora with equal document counts in which every
document has at most seven reference variants, the job descriptor has
exactly one EvalUnit per document with IDs 1..N in document order;
within each unit the peer references carry 1-based sequential IDs and
the model references carry the letter identifiers assigned by position
from `MODEL_IDS` (starting at `"A"`), never repeated within a
document. -/
theorem job_descriptor_structure (summary reference : Corpus)
    (hlen : summary.length = reference.length)
    (hcap : ∀ doc ∈ reference, doc.length ≤ 7) :
    ∃ units, buildEvalUnits (fileNames summary) (fileNames reference) = .ok units ∧
      units.length = summary.length ∧
      units.map EvalUnit.eid = List.range' 1 summary.length ∧
      ∀ u ∈ units,
        u.peers.map Prod.fst = List.range' 1 u.peers.length ∧
        u.models.map Prod.fst = MODEL_IDS.take u.models.length ∧
        (u.models.map Prod.fst).Nodup := by
  obtain ⟨units, hu, hlen', heids, hprops⟩ :=
    buildEvalUnitsAux_ok ((fileNames summary).zip (fileNames reference)) 0
      (zip_snd_cap _ reference hcap)
  have hz : ((fileNames summary).zip (fileNames reference)).length = summary.length := by
    rw [List.length_zip, fileNames_length, fileNames_length, hlen, min_self]
  exact ⟨units, hu, by rw [hlen', hz], by rw [heids, hz], hprops⟩

/-- C7 counterexample: a document with eight reference variants exhausts
`MODEL_IDS`: `self.MODEL_IDS[7]` raises `IndexError` and no job
descriptor with the claimed shape is produced. -/
theorem job_descriptor_counterexample :
    buildEvalUnits (fileNames [[["s"]]])
      (fileNames [[["r1"], ["r2"], ["r3"], ["r4"], ["r5"], ["r6"], ["r7"], ["r8"]]]) =
      .error .indexError := rfl

theorem job_descriptor_structure_witness :
    ∃ units, buildEvalUnits (fileNames [[["a"]], [["b"]]])
        (fileNames [[["c"], ["d"]], [["e"]]]) = .ok units ∧
      units.length = 2 ∧
      units.map EvalUnit.eid = List.range' 1 2 ∧
      ∀ u ∈ units,
        u.peers.map Prod.fst = List.range' 1 u.peers.length ∧
        u.models.map Prod.fst = MODEL_IDS.take u.models.length ∧
        (u.models.map Prod.fst).Nodup :=
  job_descriptor_structure [[["a"]], [["b"]]] [[["c"], ["d"]], [["e"]]] rfl
    (by decide)



/-- C9 (amended): the optional output directory is accepted by the
staging routine `convert_and_config`, which stages in it when a nonempty
one is supplied; the top-level `evaluate` takes no such argument and
always stages in the freshly generated temporary directory (it passes an
empty `output_dir`, line 315). -/
theorem output_dir_is_staging_parameter (summary reference : Corpus)
    (output_dir tempName : String)
    (hlen : summary.length = reference.length)
    (hcap : ∀ doc ∈ reference, doc.length ≤ 7)
    (hne : output_dir ≠ "") :
    (∃ run, convertAndConfig summary reference output_dir tempName = .ok run ∧
      run.output_dir = output_dir) ∧
    (∀ c to_dict fs out res fs',
      evaluateRun c summary reference to_dict tempName (.error out) fs =
        (res, fs') → fs' = tempName :: fs) := by
  obtain ⟨units, hu⟩ :=
    buildEvalUnitsAux_ok ((fileNames summary).zip (fileNames reference)) 0
      (zip_snd_cap _ reference hcap)
  have hbuild : buildEvalUnits (fileNames summary) (fileNames reference) =
      .ok units := hu.1
  constructor
  · unfold convertAndConfig
    rw [if_neg (by simp [hlen]), hbuild]
    exact ⟨_, rfl, by simp [hne]⟩
  · intro c to_dict fs out res fs' h
    unfold evaluateRun at h
    cases hc : convertAndConfig summary reference "" tempName with
    | error e =>
      unfold convertAndConfig at hc
      rw [if_neg (by simp [hlen]), hbuild] at hc
      cases hc
    | ok run =>
      rw [hc] at h
      obtain ⟨-, h2⟩ := Prod.mk.injEq .. ▸ h
      exact h2.symm

theorem output_dir_is_staging_parameter_witness :
    ∃ run, convertAndConfig [[["x"]]] [[["y"]]] "mydir" "/tmp/t" = .ok run ∧
      run.output_dir = "mydir" :=
  (output_dir_is_staging_parameter [[["x"]]] [[["y"]]] "mydir" "/tmp/t" rfl
    (by decide) (by decide)).1

theorem splitNl_append (l : List Char) (hl : '\n' ∉ l) (cs : List Char)
    {h t} (hcs : splitNl cs = h :: t) :
    splitNl (l ++ cs) = (l ++ h) :: t := by
  induction l with
  | nil => simpa using hcs
  | cons x l ih =>
    have hx : ¬(x = '\n') := fun e => hl (by simp [e])
    rw [List.cons_append]
    unfold splitNl
    rw [if_neg hx, ih (fun hm => hl (List.mem_cons_of_mem _ hm))]
    simp

theorem splitNl_staged (sents : List String) (hne : sents ≠ [])
    (h : ∀ s ∈ sents, '\n' ∉ s.data) :
    splitNl (stagedFileContent sents).data = sents.map String.data ++ [[]] := by
  induction sents with
  | nil => exact absurd rfl hne
  | cons x rest ih =>
    cases rest with
    | nil =>
      have hx : '\n' ∉ x.data := h x (List.mem_cons_self ..)
      have hdata : (stagedFileContent [x]).data = x.data ++ ['\n'] := by
        simp [stagedFileContent, joinWith, String.data_append]
      rw [hdata, splitNl_append x.data hx ['\n'] (show splitNl ['\n'] = [] :: [[]] from rfl)]
      simp
    | cons y rest' =>
      have hx : '\n' ∉ x.data := h x (List.mem_cons_self ..)
      have hdata : (stagedFileContent (x :: y :: rest')).data =
          x.data ++ ('\n' :: (stagedFileContent (y :: rest')).data) := by
        simp [stagedFileContent, joinWith, String.data_append]
      rw [hdata]
      have hrec := ih (by simp) (fun s hs => h s (List.mem_cons_of_mem _ hs))
      have hsplit : splitNl ('\n' :: (stagedFileContent (y :: rest')).data) =
          [] :: ((y :: rest').map String.data ++ [[]]) := by
        unfold splitNl
        rw [if_pos rfl, hrec]
      rw [splitNl_append x.data hx _ hsplit]
      simp

/-- C6 (amended): for every nonempty sentence list whose sentences
contain no newline character, staging then reading the file back
reproduces the original sentence sequence. -/
theorem staging_readback_roundtrip (sents : List String) (hne : sents ≠ [])
    (h : ∀ s ∈ sents, '\n' ∉ s.data) :
    readLines (stagedFileContent sents) = sents := by
  have hs := splitNl_staged sents hne h
  have hd : (stagedFileContent sents).data ≠ [] := by
    intro h0
    rw [h0] at hs
    have hlen := congrArg List.length hs
    simp [splitNl] at hlen
    exact hne hlen
  unfold readLines
  rw [if_neg hd]
  simp only [hs, List.map_append]
  have hmk : (sents.map String.data).map String.mk = sents := by
    rw [List.map_map]
    have hcomp : (String.mk ∘ String.data) = id := funext fun s => rfl
    rw [hcomp, List.map_id]
  simp only [List.map_cons, List.map_nil, hmk]
  rw [show String.mk [] = "" from rfl, List.getLast?_concat, if_pos rfl,
    List.dropLast_concat]

/-- C6 counterexample: a sentence containing an embedded newline does not
round-trip: staging `["a\nb"]` produces a file that reads back as two
lines `["a", "b"]`. -/
theorem staging_readback_counterexample :
    readLines (stagedFileContent ["a\nb"]) = ["a", "b"] ∧
    readLines (stagedFileContent ["a\nb"]) ≠ ["a\nb"] := by
  constructor
  · rfl
  · decide

theorem staging_readback_roundtrip_witness :
    readLines (stagedFileContent ["The cat sat.", "A dog ran."]) =
      ["The cat sat.", "A dog ran."] :=
  staging_readback_roundtrip ["The cat sat.", "A dog ran."] (by simp)
    (by decide)

theorem pyFloatE_map_ok {g : ℚ → ResultDict} {l : List Char} {res' : ResultDict}
    (h : (pyFloatE l).map g = .ok res') : ∃ v, res' = g v := by
  unfold pyFloatE at h
  cases hp : pyFloat l with
  | some v =>
    rw [hp] at h
    simp [Except.map] at h
    exact ⟨v, h.symm⟩
  | none => rw [hp] at h; simp [Except.map] at h

theorem keysOf_insertKV_mem {res : ResultDict} {k : String} {v : ℚ} {k' : String}
    (h : k' ∈ keysOf (insertKV res k v)) : k' ∈ keysOf res ∨ k' = k := by
  unfold insertKV at h
  split at h
  · left
    unfold keysOf at h ⊢
    rw [List.map_map] at h
    obtain ⟨p, hp, hpk⟩ := List.mem_map.mp h
    refine List.mem_map.mpr ⟨p, hp, ?_⟩
    simp only [Function.comp] at hpk
    split at hpk
    · rename_i hpk1
      rw [← hpk]
      exact hpk1
    · exact hpk
  · unfold keysOf at h
    rw [List.map_append] at h
    rcases List.mem_append.mp h with h1 | h2
    · exact Or.inl h1
    · simp at h2
      exact Or.inr h2

theorem familyUpdateR_keys {res : ResultDict} {base : String}
    {rM : Option (List Char)} {r f : Bool} {res' : ResultDict}
    (h : familyUpdateR res base rM r f = .ok res') :
    ∀ k ∈ keysOf res', k ∈ keysOf res ∨ k = base ∨ k = base ++ "-R" := by
  unfold familyUpdateR at h
  split at h
  · split at h
    · obtain ⟨v, hv⟩ := pyFloatE_map_ok h
      subst hv
      intro k hk
      rcases keysOf_insertKV_mem hk with h1 | h2
      · exact Or.inl h1
      · exact Or.inr (Or.inl h2)
    · split at h
      · cases h
        exact fun k hk => Or.inl hk
      · obtain ⟨v, hv⟩ := pyFloatE_map_ok h
        subst hv
        intro k hk
        rcases keysOf_insertKV_mem hk with h1 | h2
        · exact Or.inl h1
        · exact Or.inr (Or.inr h2)
  · cases h
    exact fun k hk => Or.inl hk

theorem familyUpdatePF_keys {res : ResultDict} {base : String}
    {pM fM : Option (List Char)} {r f : Bool} {res' : ResultDict}
    (h : familyUpdatePF res base pM fM r f = .ok res') :
    ∀ k ∈ keysOf res',
      k ∈ keysOf res ∨ k = base ∨ k = base ++ "-P" ∨ k = base ++ "-F" := by
  unfold familyUpdatePF at h
  split at h
  · cases h
    exact fun k hk => Or.inl hk
  · split at h
    · split at h
      · obtain ⟨v, hv⟩ := pyFloatE_map_ok h
        subst hv
        intro k hk
        rcases keysOf_insertKV_mem hk with h1 | h2
        · exact Or.inl h1
        · exact Or.inr (Or.inl h2)
      · cases h
        exact fun k hk => Or.inl hk
    · split at h
      · obtain ⟨v, hv⟩ := pyFloatE_map_ok h
        subst hv
        intro k hk
        rcases keysOf_insertKV_mem hk with h1 | h2
        · exact Or.inl h1
        · exact Or.inr (Or.inr (Or.inl h2))
      · split at h
        · obtain ⟨v, hv⟩ := pyFloatE_map_ok h
          subst hv
          intro k hk
          rcases keysOf_insertKV_mem hk with h1 | h2
          · exact Or.inl h1
          · exact Or.inr (Or.inr (Or.inr h2))
        · cases h
          exact fun k hk => Or.inl hk

theorem familyUpdate_keys {res : ResultDict} {base : String}
    {rM pM fM : Option (List Char)} {r f : Bool} {res' : ResultDict}
    (h : familyUpdate res base rM pM fM r f = .ok res') :
    ∀ k ∈ keysOf res', k ∈ keysOf res ∨ k ∈ famKeys base := by
  unfold familyUpdate at h
  split at h
  · cases h
  · rename_i res1 heq
    intro k hk
    rcases familyUpdatePF_keys h k hk with h1 | h2 | h3 | h4
    · rcases familyUpdateR_keys heq k h1 with g1 | g2 | g3
      · exact Or.inl g1
      · exact Or.inr (by simp [famKeys, g2])
      · exact Or.inr (by simp [famKeys, g3])
    · exact Or.inr (by simp [famKeys, h2])
    · exact Or.inr (by simp [famKeys, h3])
    · exact Or.inr (by simp [famKeys, h4])

theorem familyUpdate_keys_default {res : ResultDict} {base : String}
    {rM pM fM : Option (List Char)} {res' : ResultDict}
    (h : familyUpdate res base rM pM fM false false = .ok res') :
    ∀ k ∈ keysOf res', k ∈ keysOf res ∨ EndsRPF k := by
  unfold familyUpdate at h
  split at h
  · cases h
  · rename_i res1 heq
    have hR : ∀ k ∈ keysOf res1, k ∈ keysOf res ∨ EndsRPF k := by
      unfold familyUpdateR at heq
      split at heq
      · rw [if_neg (by simp), if_neg (by simp)] at heq
        obtain ⟨v, hv⟩ := pyFloatE_map_ok heq
        subst hv
        intro k hk
        rcases keysOf_insertKV_mem hk with h1 | h2
        · exact Or.inl h1
        · exact Or.inr (Or.inl ⟨base, h2⟩)
      · cases heq
        exact fun k hk => Or.inl hk
    unfold familyUpdatePF at h
    rw [if_neg (by simp), if_neg (by simp)] at h
    intro k hk
    split at h
    · obtain ⟨v, hv⟩ := pyFloatE_map_ok h
      subst hv
      rcases keysOf_insertKV_mem hk with h1 | h2
      · exact hR k h1
      · exact Or.inr (Or.inr (Or.inl ⟨base, h2⟩))
    · split at h
      · obtain ⟨v, hv⟩ := pyFloatE_map_ok h
        subst hv
        rcases keysOf_insertKV_mem hk with h1 | h2
        · exact hR k h1
        · exact Or.inr (Or.inr (Or.inr ⟨base, h2⟩))
      · cases h
        exact hR k hk



theorem parseLineData_keys {c : RougeConfig} {r f : Bool}
    {st : ResultDict × ℕ} {d : List Char} {st' : ResultDict × ℕ}
    (h : parseLineData c r f st d = .ok st') :
    ∀ k ∈ keysOf st'.1, k ∈ keysOf st.1 ∨
      (c.ROUGE_SU4 = true ∧ k ∈ famKeys "ROUGE-SU4") ∨
      (c.ROUGE_L = true ∧ k ∈ famKeys "ROUGE-L") ∨
      (c.ROUGE_W = true ∧ k ∈ famKeys ("ROUGE-W-" ++ c.ROUGE_W_Weight)) ∨
      k ∈ famKeys ("ROUGE-" ++ Nat.repr st.2) := by
  unfold parseLineData at h
  split at h
  · cases h
  · rename_i res1 heq1
    split at h
    · cases h
    · rename_i res2 heq2
      split at h
      · cases h
      · rename_i res3 heq3
        split at h
        · cases h
        · rename_i res4 heq4
          have hst : st'.1 = res4 := by cases h; rfl
          have step1 : ∀ k ∈ keysOf res1, k ∈ keysOf st.1 ∨
              (c.ROUGE_SU4 = true ∧ k ∈ famKeys "ROUGE-SU4") := by
            split at heq1
            · rename_i htog
              intro k hk
              rcases familyUpdate_keys heq1 k hk with h1 | h2
              · exact Or.inl h1
              · exact Or.inr ⟨htog, h2⟩
            · cases heq1
              exact fun k hk => Or.inl hk
          have step2 : ∀ k ∈ keysOf res2, k ∈ keysOf res1 ∨
              (c.ROUGE_L = true ∧ k ∈ famKeys "ROUGE-L") := by
            split at heq2
            · rename_i htog
              intro k hk
              rcases familyUpdate_keys heq2 k hk with h1 | h2
              · exact Or.inl h1
              · exact Or.inr ⟨htog, h2⟩
            · cases heq2
              exact fun k hk => Or.inl hk
          have step3 : ∀ k ∈ keysOf res3, k ∈ keysOf res2 ∨
              (c.ROUGE_W = true ∧
                k ∈ famKeys ("ROUGE-W-" ++ c.ROUGE_W_Weight)) := by
            split at heq3
            · rename_i htog
              intro k hk
              rcases familyUpdate_keys heq3 k hk with h1 | h2
              · exact Or.inl h1
              · exact Or.inr ⟨htog, h2⟩
            · cases heq3
              exact fun k hk => Or.inl hk
          intro k hk
          rw [hst] at hk
          rcases familyUpdate_keys heq4 k hk with h4 | h4
          · rcases step3 k h4 with h3 | h3
            · rcases step2 k h3 with h2 | h2
              · rcases step1 k h2 with h1 | h1
                · exact Or.inl h1
                · exact Or.inr (Or.inl h1)
              · exact Or.inr (Or.inr (Or.inl h2))
            · exact Or.inr (Or.inr (Or.inr (Or.inl h3)))
          · exact Or.inr (Or.inr (Or.inr (Or.inr h4)))

theorem parseLineData_keys_default {c : RougeConfig}
    {st : ResultDict × ℕ} {d : List Char} {st' : ResultDict × ℕ}
    (h : parseLineData c false false st d = .ok st') :
    ∀ k ∈ keysOf st'.1, k ∈ keysOf st.1 ∨ EndsRPF k := by
  unfold parseLineData at h
  split at h
  · cases h
  · rename_i res1 heq1
    split at h
    · cases h
    · rename_i res2 heq2
      split at h
      · cases h
      · rename_i res3 heq3
        split at h
        · cases h
        · rename_i res4 heq4
          have hst : st'.1 = res4 := by cases h; rfl
          have step1 : ∀ k ∈ keysOf res1, k ∈ keysOf st.1 ∨ EndsRPF k := by
            split at heq1
            · exact familyUpdate_keys_default heq1
            · cases heq1
              exact fun k hk => Or.inl hk
          have step2 : ∀ k ∈ keysOf res2, k ∈ keysOf res1 ∨ EndsRPF k := by
            split at heq2
            · exact familyUpdate_keys_default heq2
            · cases heq2
              exact fun k hk => Or.inl hk
          have step3 : ∀ k ∈ keysOf res3, k ∈ keysOf res2 ∨ EndsRPF k := by
            split at heq3
            · exact familyUpdate_keys_default heq3
            · cases heq3
              exact fun k hk => Or.inl hk
          intro k hk
          rw [hst] at hk
          rcases familyUpdate_keys_default heq4 k hk with h4 | h4
          · rcases step3 k h4 with h3 | h3
            · rcases step2 k h3 with h2 | h2
              · exact step1 k h2
              · exact Or.inr h2
            · exact Or.inr h3
          · exact Or.inr h4

theorem parseLines_no_bad (c : RougeConfig) (r f : Bool) (bad : String → Prop)
    (hSU4 : c.ROUGE_SU4 = true → ∀ k ∈ famKeys "ROUGE-SU4", ¬ bad k)
    (hL : c.ROUGE_L = true → ∀ k ∈ famKeys "ROUGE-L", ¬ bad k)
    (hW : c.ROUGE_W = true →
      ∀ k ∈ famKeys ("ROUGE-W-" ++ c.ROUGE_W_Weight), ¬ bad k)
    (hN : ∀ n : ℕ, ∀ k ∈ famKeys ("ROUGE-" ++ Nat.repr n), ¬ bad k) :
    ∀ (lines : List String) (st st' : ResultDict × ℕ),
      parseLines c r f st lines = .ok st' →
      (∀ k ∈ keysOf st.1, ¬ bad k) → ∀ k ∈ keysOf st'.1, ¬ bad k := by
  intro lines
  induction lines with
  | nil =>
    intro st st' h hinv
    cases h
    exact hinv
  | cons line rest ih =>
    intro st st' h hinv
    unfold parseLines at h
    split at h
    · cases h
    · rename_i st1 heq
      refine ih st1 st' h ?_
      intro k hk
      rcases parseLineData_keys heq k hk with h1 | h2 | h3 | h4 | h5
      · exact hinv k h1
      · exact hSU4 h2.1 k h2.2
      · exact hL h3.1 k h3.2
      · exact hW h4.1 k h4.2
      · exact hN st.2 k h5

theorem parseLines_default_suffixed (c : RougeConfig) :
    ∀ (lines : List String) (st st' : ResultDict × ℕ),
      parseLines c false false st lines = .ok st' →
      (∀ k ∈ keysOf st.1, EndsRPF k) → ∀ k ∈ keysOf st'.1, EndsRPF k := by
  intro lines
  induction lines with
  | nil =>
    intro st st' h hinv
    cases h
    exact hinv
  | cons line rest ih =>
    intro st st' h hinv
    unfold parseLines at h
    split at h
    · cases h
    · rename_i st1 heq
      refine ih st1 st' h ?_
      intro k hk
      rcases parseLineData_keys_default heq k hk with h1 | h2
      · exact hinv k h1
      · exact h2



theorem digitChar_isDigit {m : ℕ} (h : m < 10) :
    (Nat.digitChar m).isDigit = true := by
  interval_cases m <;> decide

theorem toDigitsCore_digits :
    ∀ (fuel n : ℕ) (ds : List Char), (∀ c ∈ ds, c.isDigit = true) →
      ∀ c ∈ Nat.toDigitsCore 10 fuel n ds, c.isDigit = true := by
  intro fuel
  induction fuel with
  | zero =>
    intro n ds hds
    simpa [Nat.toDigitsCore] using hds
  | succ fuel ih =>
    intro n ds hds c hc
    simp only [Nat.toDigitsCore] at hc
    have hdig : (Nat.digitChar (n % 10)).isDigit = true :=
      digitChar_isDigit (Nat.mod_lt n (by norm_num))
    split at hc
    · rcases List.mem_cons.mp hc with h1 | h1
      · rw [h1]; exact hdig
      · exact hds c h1
    · refine ih (n / 10) _ ?_ c hc
      intro x hx
      rcases List.mem_cons.mp hx with h1 | h1
      · rw [h1]; exact hdig
      · exact hds x h1

theorem toDigitsCore_ne_nil :
    ∀ (fuel n : ℕ) (ds : List Char), ds ≠ [] ∨ 0 < fuel →
      Nat.toDigitsCore 10 fuel n ds ≠ [] := by
  intro fuel
  induction fuel with
  | zero =>
    intro n ds h
    rcases h with h | h
    · simpa [Nat.toDigitsCore] using h
    · omega
  | succ fuel ih =>
    intro n ds _
    simp only [Nat.toDigitsCore]
    split
    · simp
    · exact ih (n / 10) _ (Or.inl (by simp))

theorem repr_data_digits (n : ℕ) : ∀ c ∈ (Nat.repr n).data, c.isDigit = true := by
  intro c hc
  have hrepr : (Nat.repr n).data = Nat.toDigitsCore 10 (n + 1) n [] := rfl
  rw [hrepr] at hc
  exact toDigitsCore_digits (n + 1) n [] (by simp) c hc

theorem repr_data_ne_nil (n : ℕ) : (Nat.repr n).data ≠ [] :=
  toDigitsCore_ne_nil (n + 1) n [] (Or.inr (Nat.succ_pos n))

theorem get6_N (n : ℕ) (k : String)
    (hk : k ∈ famKeys ("ROUGE-" ++ Nat.repr n)) :
    ∃ ch, k.data[6]? = some ch ∧ ch.isDigit = true := by
  obtain ⟨d, ds, hds⟩ : ∃ d ds, (Nat.repr n).data = d :: ds := by
    cases h : (Nat.repr n).data with
    | nil => exact absurd h (repr_data_ne_nil n)
    | cons d ds => exact ⟨d, ds, rfl⟩
  have hd : d.isDigit = true := repr_data_digits n d (by rw [hds]; simp)
  have hcore : ∀ tail : List Char,
      (("ROUGE-" ++ Nat.repr n).data ++ tail)[6]? = some d := by
    intro tail
    rw [String.data_append, List.append_assoc,
      List.getElem?_append_right (by decide : ("ROUGE-".data).length ≤ 6), hds]
    rw [show (6 - ("ROUGE-".data).length : ℕ) = 0 by decide]
    simp
  simp only [famKeys, List.mem_cons, List.not_mem_nil, or_false] at hk
  rcases hk with hk | hk | hk | hk <;> subst hk
  · refine ⟨d, ?_, hd⟩
    have h0 := hcore []
    rwa [List.append_nil] at h0
  all_goals exact ⟨d, by rw [String.data_append]; exact hcore _, hd⟩

theorem get6_W (w : String) (k : String)
    (hk : k ∈ famKeys ("ROUGE-W-" ++ w)) : k.data[6]? = some 'W' := by
  have hcore : ∀ tail : List Char,
      (("ROUGE-W-" ++ w).data ++ tail)[6]? = some 'W' := by
    intro tail
    rw [String.data_append, List.append_assoc,
      List.getElem?_append_left (by decide : (6 : ℕ) < ("ROUGE-W-".data).length)]
    rfl
  simp only [famKeys, List.mem_cons, List.not_mem_nil, or_false] at hk
  rcases hk with hk | hk | hk | hk <;> subst hk
  · have h0 := hcore []
    rwa [List.append_nil] at h0
  all_goals rw [String.data_append]; exact hcore _

theorem get6_SU4 : ∀ k ∈ famKeys "ROUGE-SU4", k.data[6]? = some 'S' := by decide

theorem get6_L : ∀ k ∈ famKeys "ROUGE-L", k.data[6]? = some 'L' := by decide



/-- C8: for every captured output, configuration and flag pair, keys of
the SU4, L and W families appear in the parsed mapping only when the
corresponding toggle is enabled, while the N family is parsed regardless
of the toggles (last conjunct: with all three toggles off, an N line
still yields its key). -/
theorem family_keys_require_toggle (c : RougeConfig) (output : String)
    (r f : Bool) (res : ResultDict)
    (h : output_to_dict c output r f = .ok res) :
    (c.ROUGE_SU4 = false → ∀ k ∈ keysOf res, k ∉ famKeys "ROUGE-SU4") ∧
    (c.ROUGE_L = false → ∀ k ∈ keysOf res, k ∉ famKeys "ROUGE-L") ∧
    (c.ROUGE_W = false → ∀ k ∈ keysOf res,
      k ∉ famKeys ("ROUGE-W-" ++ c.ROUGE_W_Weight)) ∧
    (∃ q, output_to_dict
        { defaultConfig with
            ROUGE_SU4 := false, ROUGE_L := false, ROUGE_W := false }
        "A ROUGE-1 Average_R: 0.45231" false false = .ok [("ROUGE-1-R", q)]) := by
  obtain ⟨st, heq, hres⟩ : ∃ st, parseLines c r f ([], 1)
      ((splitNl (pyStrip output).data).map String.mk) = .ok st ∧ res = st.1 := by
    unfold output_to_dict at h
    split at h
    · cases h
    · split at h
      · cases h
      · rename_i st heq
        cases h
        exact ⟨st, heq, rfl⟩
  subst hres
  refine ⟨fun hoff => ?_, fun hoff => ?_, fun hoff => ?_, ⟨_, rfl⟩⟩
  · refine parseLines_no_bad c r f (· ∈ famKeys "ROUGE-SU4") ?_ ?_ ?_ ?_ _ _ _
      heq (by simp [keysOf])
    · intro htog; rw [hoff] at htog; cases htog
    · intro _ k hkL hkS
      have h1 := get6_L k hkL
      have h2 := get6_SU4 k hkS
      rw [h1] at h2
      simp at h2
    · intro _ k hkW hkS
      have h1 := get6_W c.ROUGE_W_Weight k hkW
      have h2 := get6_SU4 k hkS
      rw [h1] at h2
      simp at h2
    · intro n k hkN hkS
      obtain ⟨ch, hch, hdig⟩ := get6_N n k hkN
      have h2 := get6_SU4 k hkS
      rw [hch] at h2
      obtain rfl : ch = 'S' := by simpa using h2
      exact absurd hdig (by decide)
  · refine parseLines_no_bad c r f (· ∈ famKeys "ROUGE-L") ?_ ?_ ?_ ?_ _ _ _
      heq (by simp [keysOf])
    · intro _ k hkS hkL
      have h1 := get6_SU4 k hkS
      have h2 := get6_L k hkL
      rw [h1] at h2
      simp at h2
    · intro htog; rw [hoff] at htog; cases htog
    · intro _ k hkW hkL
      have h1 := get6_W c.ROUGE_W_Weight k hkW
      have h2 := get6_L k hkL
      rw [h1] at h2
      simp at h2
    · intro n k hkN hkL
      obtain ⟨ch, hch, hdig⟩ := get6_N n k hkN
      have h2 := get6_L k hkL
      rw [hch] at h2
      obtain rfl : ch = 'L' := by simpa using h2
      exact absurd hdig (by decide)
  · refine parseLines_no_bad c r f
      (· ∈ famKeys ("ROUGE-W-" ++ c.ROUGE_W_Weight)) ?_ ?_ ?_ ?_ _ _ _
      heq (by simp [keysOf])
    · intro _ k hkS hkW
      have h1 := get6_SU4 k hkS
      have h2 := get6_W c.ROUGE_W_Weight k hkW
      rw [h1] at h2
      simp at h2
    · intro _ k hkL hkW
      have h1 := get6_L k hkL
      have h2 := get6_W c.ROUGE_W_Weight k hkW
      rw [h1] at h2
      simp at h2
    · intro htog; rw [hoff] at htog; cases htog
    · intro n k hkN hkW
      obtain ⟨ch, hch, hdig⟩ := get6_N n k hkN
      have h2 := get6_W c.ROUGE_W_Weight k hkW
      rw [hch] at h2
      obtain rfl : ch = 'W' := by simpa using h2
      exact absurd hdig (by decide)

theorem family_keys_require_toggle_witness :
    "ROUGE-L-R" ∉ famKeys "ROUGE-SU4" := by
  have hd : ∃ q, output_to_dict
      { defaultConfig with ROUGE_SU4 := false, ROUGE_L := true }
      "A ROUGE-L Average_R: 0.5" false false = .ok [("ROUGE-L-R", q)] := ⟨_, rfl⟩
  obtain ⟨q, hq⟩ := hd
  exact (family_keys_require_toggle _ _ false false _ hq).1 rfl
    "ROUGE-L-R" (by simp [keysOf])

/-- C10: whenever `evaluate` with the dict-conversion flag returns a
mapping, that mapping was produced by `output_to_dict` with both parser
mode flags false, so every key carries an `-R`, `-P` or `-F` suffix and
no bare metric-name key ever appears. -/
theorem evaluate_dict_keys_suffixed (c : RougeConfig)
    (summary reference : Corpus) (tempName : String)
    (procResult : Except String String) (fs : List String)
    (d : ResultDict) (fs' : List String)
    (h : evaluateRun c summary reference true tempName procResult fs =
      (.ok (.dict d), fs')) :
    ∀ k ∈ keysOf d, EndsRPF k := by
  unfold evaluateRun at h
  split at h
  · simp at h
  · split at h
    · simp at h
    · rename_i output
      split at h
      · simp at h
      · rename_i r heq
        have hr : r = .dict d := by
          have h1 := congrArg Prod.fst h
          simpa using h1
        subst hr
        rw [if_pos rfl] at heq
        have hod : output_to_dict c output false false = .ok d := by
          cases ho : output_to_dict c output false false with
          | error e =>
            rw [ho] at heq
            simp [Except.map] at heq
          | ok res =>
            rw [ho] at heq
            simp only [Except.map] at heq
            cases heq
            rfl
        obtain ⟨st, hpl, hres⟩ : ∃ st, parseLines c false false ([], 1)
            ((splitNl (pyStrip output).data).map String.mk) = .ok st ∧
            d = st.1 := by
          unfold output_to_dict at hod
          split at hod
          · cases hod
          · split at hod
            · cases hod
            · rename_i st hst
              cases hod
              exact ⟨st, hst, rfl⟩
        subst hres
        exact parseLines_default_suffixed c _ _ _ hpl (by simp [keysOf])

theorem evaluate_dict_keys_suffixed_witness : EndsRPF "ROUGE-1-R" := by
  have hd : ∃ q, evaluateRun defaultConfig [[["a"]]] [[["b"]]] true "/tmp/t"
      (.ok "A ROUGE-1 Average_R: 0.45231") [] =
      (.ok (.dict [("ROUGE-1-R", q)]), []) := ⟨_, rfl⟩
  obtain ⟨q, hq⟩ := hd
  exact evaluate_dict_keys_suffixed defaultConfig [[["a"]]] [[["b"]]] "/tmp/t"
    (.ok "A ROUGE-1 Average_R: 0.45231") [] [("ROUGE-1-R", q)] [] hq
    "ROUGE-1-R" (by simp [keysOf])

end PythonRouge
